import Mathlib

/-!
Shallow embedding of `pw-push-to-talk` (src/main.rs) for specification
verification.

The program has two threads, each owning its own PipeWire connection:

* the Dispatcher (`main`): reads X11 key events, and for each event walks the
  shared binding table, issuing mute requests according to the HOLD/TOGGLE
  rule, followed by one `do_roundtrip` on the core owned by `main` when at least one
  request was issued;
* the Watcher (`listen_for_nodes`): services registry global notifications on
  its own connection, binding a proxy for every matching node and pushing the
  entry into the shared table.

We model connections by natural-number identifiers.  The core of `main` is
`dispatcherConn`; the core created inside `listen_for_nodes` is
`watcherConn`.  A bound proxy carries the connection of the registry that
bound it (in the source, the `pw::node::Node` proxy is tethered to the core
whose registry produced it): proxies bound by the Watcher live on
`watcherConn`.

Effects are recorded in traces of `Action`s, in program order.
-/

namespace PwPTT

/-- Connection owned by `main` (the Dispatcher): `core` from line 223. -/
def dispatcherConn : Nat := 0

/-- Connection owned by `listen_for_nodes` (the Watcher): its own `core`,
line 288. -/
def watcherConn : Nat := 1

/-- `enum KeyType { HOLD, TOGGLE }` (main.rs line 40). -/
inductive KeyType where
  | HOLD
  | TOGGLE
deriving DecidableEq

/-- `enum KeyEventType { PRESS, RELEASE }` (main.rs line 46). -/
inductive KeyEventType where
  | PRESS
  | RELEASE
deriving DecidableEq

/-- `struct KeyEvent { type_, keysym }` (main.rs line 53).  Keysyms are
`c_ulong`; we use `Nat` since only equality of keysyms is ever used. -/
structure KeyEvent where
  type_ : KeyEventType
  keysym : Nat
deriving DecidableEq

/-- `struct Node { global_id: u32, proxy: pw::node::Node }` (main.rs line 32).
The proxy is modelled by a client-side handle identity (`proxy`) together with
the connection on which `registry.bind` created it (`conn`): requests issued
through the proxy travel on that connection. -/
structure Node where
  global_id : Nat
  proxy : Nat
  conn : Nat
deriving DecidableEq

/-- One element of the shared `Vec<(Node, (KeyType, c_ulong))>`
(main.rs line 227): the binding table entry. -/
structure Entry where
  node : Node
  key_type : KeyType
  keysym : Nat
deriving DecidableEq

/-- Observable effects, recorded in program order. -/
inductive Action where
  /-- `set_mute(&node.proxy, mute)` (main.rs line 262): a
  `SPA_PARAM_Props` set-param request carrying `mute`, issued for handle
  `proxy` on connection `conn`. -/
  | SetParam (conn : Nat) (proxy : Nat) (mute : Bool)
  /-- `thread::sleep(Duration::from_millis(ms))` (main.rs line 243). -/
  | Sleep (ms : Nat)
  /-- `do_roundtrip(&mainloop, &core)` (main.rs line 324): the barrier, on
  connection `conn`. -/
  | Roundtrip (conn : Nat)
  /-- `registry_clone.bind(global)` (main.rs line 303) on connection `conn`,
  for the global with id `global_id`. -/
  | Bind (conn : Nat) (global_id : Nat)
  /-- `vec.push((node, *key))` under the table lock (main.rs line 312). -/
  | Insert
deriving DecidableEq

/-- `set_mute(&node.proxy, mute)` as an action: the request is issued on the
connection that owns the proxy (main.rs lines 262-276; the comment above
`set_mute` reads `requires call to do_roundtrip`). -/
def set_mute (node : Node) (mute : Bool) : Action :=
  Action.SetParam node.conn node.proxy mute

/-! ## The Dispatcher (`main`, lines 232-258)

`key_states : HashMap<u32, bool>` is modelled as an association list from
`global_id` to the remembered toggle state.  `or_insert(true)` means an
absent key reads as `true`. -/

/-- Value of `key_states.entry(id).or_insert(true)` before mutation:
lookup defaulting to `true`. -/
def ks_get (ks : List (Nat × Bool)) (id : Nat) : Bool :=
  match ks.find? (fun p => p.1 == id) with
  | some p => p.2
  | none => true

/-- Store `v` under `id` in `key_states` (update in place, or insert). -/
def ks_set (ks : List (Nat × Bool)) (id : Nat) (v : Bool) : List (Nat × Bool) :=
  if ks.any (fun p => p.1 == id) then
    ks.map (fun p => if p.1 == id then (id, v) else p)
  else
    ks ++ [(id, v)]

/-- Body of `for (node, (key_type, k)) in nodes.lock().unwrap().deref()`
(main.rs lines 237-254) for a single entry: returns the updated
`key_states`, the actions this entry emits, and whether it set `change`.

* non-matching key: nothing (lines 238, 253);
* HOLD: `mute = (event.type_ == RELEASE)`; if muting and
  `release_delay > 0`, sleep first; then `set_mute`; `change = true`
  (lines 239-246);
* TOGGLE: only on PRESS: flip the state stored under `node.global_id`
  (inserted as `true` when absent), send the new value; `change = true`
  (lines 247-252). -/
def entry_step (release_delay : Nat) (ev : KeyEvent) (ks : List (Nat × Bool))
    (e : Entry) : List (Nat × Bool) × List Action × Bool :=
  if ev.keysym = e.keysym then
    match e.key_type with
    | KeyType.HOLD =>
        let mute := ev.type_ = KeyEventType.RELEASE
        (ks,
         (if mute ∧ release_delay > 0 then [Action.Sleep release_delay] else [])
           ++ [set_mute e.node mute],
         true)
    | KeyType.TOGGLE =>
        if ev.type_ = KeyEventType.PRESS then
          let state := !(ks_get ks e.node.global_id)
          (ks_set ks e.node.global_id state, [set_mute e.node state], true)
        else
          (ks, [], false)
  else
    (ks, [], false)

/-- The whole `for` loop over the binding table for one event, threading
`key_states` and accumulating the `change` flag (main.rs lines 236-254). -/
def loop_entries (release_delay : Nat) (ev : KeyEvent) :
    List (Nat × Bool) → List Entry → List (Nat × Bool) × List Action × Bool
  | ks, [] => (ks, [], false)
  | ks, e :: rest =>
      let s1 := entry_step release_delay ev ks e
      let s2 := loop_entries release_delay ev s1.1 rest
      (s2.1, s1.2.1 ++ s2.2.1, s1.2.2 || s2.2.2)

/-- One iteration of the Dispatcher event-loop body (main.rs lines
234-257): process the event against the table, then
`if change { do_roundtrip(&mainloop, &core) }` — the barrier on the
connection owned by `main` itself. -/
def process_event (release_delay : Nat) (table : List Entry)
    (ks : List (Nat × Bool)) (ev : KeyEvent) :
    List (Nat × Bool) × List Action :=
  let s := loop_entries release_delay ev ks table
  (s.1, s.2.1 ++ (if s.2.2 then [Action.Roundtrip dispatcherConn] else []))

/-- The Dispatcher loop over a finite list of key events (the table is
only read by the Dispatcher; it is held fixed here, as when the Watcher is
quiescent). -/
def run_events (release_delay : Nat) (table : List Entry) :
    List (Nat × Bool) → List KeyEvent → List (Nat × Bool) × List Action
  | ks, [] => (ks, [])
  | ks, ev :: rest =>
      let s1 := process_event release_delay table ks ev
      let s2 := run_events release_delay table s1.1 rest
      (s2.1, s1.2 ++ s2.2)

/-- The mute values of the set-param requests in a trace, in order. -/
def sent_mutes (tr : List Action) : List Bool :=
  tr.filterMap (fun a =>
    match a with
    | Action.SetParam _ _ m => some m
    | _ => none)

/-- The mute values of the set-param requests addressed to handle `h`. -/
def sent_mutes_to (h : Nat) (tr : List Action) : List Bool :=
  tr.filterMap (fun a =>
    match a with
    | Action.SetParam _ p m => if p = h then some m else none
    | _ => none)

/-! ## The Watcher (`listen_for_nodes`, lines 285-319) -/

/-- `pw::types::ObjectType` as used by the callback: only whether the
object is a `Node` is ever inspected (`global.type_ != ObjectType::Node`,
line 299); other variants are collapsed but kept distinguishable. -/
inductive ObjectType where
  | Node
  | Other (tag : Nat)
deriving DecidableEq

/-- A registry `GlobalObject` notification: `{ id, type_, props }`
(fields read at lines 297-305).  `props` is an optional dictionary. -/
structure GlobalObject where
  id : Nat
  type_ : ObjectType
  props : Option (List (String × String))
deriving DecidableEq

/-- `props.get(key)`: lookup in the property dictionary. -/
def props_get (props : List (String × String)) (key : String) : Option String :=
  match props.find? (fun p => p.1 == key) with
  | some p => some p.2
  | none => none

/-- A configured binding as produced by `node_args`:
`(name, (key_type, keysym))` (main.rs line 195). -/
structure Binding where
  name : String
  key_type : KeyType
  keysym : Nat
deriving DecidableEq

/-- The `for_each` body over the matching bindings (main.rs lines 302-313):
for each binding whose name matches, bind a proxy on the Watcher
connection (fresh handle id `np`), `set_mute(&node.proxy, true)`, then push
the entry onto the shared table.  Threads the fresh-handle counter. -/
def bind_matches (gid : Nat) :
    List Entry → Nat → List Binding → List Entry × List Action × Nat
  | table, np, [] => (table, [], np)
  | table, np, b :: rest =>
      let node : Node := { global_id := gid, proxy := np, conn := watcherConn }
      let s := bind_matches gid (table ++ [{ node := node, key_type := b.key_type, keysym := b.keysym }]) (np + 1) rest
      (s.1,
       [Action.Bind watcherConn gid, set_mute node true, Action.Insert] ++ s.2.1,
       s.2.2)

/-- The registry `.global` callback (main.rs lines 296-315):

* return if `global.props.is_none()` (line 297);
* return if `global.type_ != ObjectType::Node` (line 299);
* if `props.get("node.name")` is present, run the bind/mute/push body for
  every configured binding whose `name` equals it.

`np` is the next fresh client-side handle id; the result is the new table,
the actions of the Watcher, and the updated counter. -/
def on_global (name_key : List Binding) (table : List Entry) (np : Nat)
    (g : GlobalObject) : List Entry × List Action × Nat :=
  match g.props with
  | none => (table, [], np)
  | some props =>
      if g.type_ ≠ ObjectType.Node then (table, [], np)
      else
        match props_get props ("node.name") with
        | some name =>
            bind_matches g.id table np (name_key.filter (fun b => name == b.name))
        | none => (table, [], np)

/-! ## The barrier (`do_roundtrip`, lines 324-346) -/

/-- `pw::PW_ID_CORE` (= `PW_ID_CORE` = 0 in the PipeWire headers). -/
def PW_ID_CORE : Nat := 0

/-- A `done` event observed on the core listener: carries `(id, seq)`
(main.rs line 335). -/
structure DoneEvent where
  id : Nat
  seq : Nat
deriving DecidableEq

/-- `true` exactly on the barrier action. -/
def is_roundtrip : Action → Bool
  | Action.Roundtrip _ => true
  | _ => false

/-- `do_roundtrip` (main.rs lines 324-346): after `core.sync(0)` returned
the pending sequence number, the main loop is run; the `done` callback sets
the flag and quits the loop exactly when `id == pw::PW_ID_CORE && seq ==
pending`.  Modelled over the stream of incoming `done` events: events are
consumed in order until the first acknowledgement matching `pending`;
`some rest` means the roundtrip returned with `rest` not yet consumed,
`none` means no acknowledgement ever matched (the loop never quits). -/
def do_roundtrip (pending : Nat) : List DoneEvent → Option (List DoneEvent)
  | [] => none
  | e :: rest =>
      if e.id = PW_ID_CORE ∧ e.seq = pending then some rest
      else do_roundtrip pending rest

/-! ## Lemmas about the Dispatcher loop -/

/-- An entry whose keysym differs from the event keysym does nothing. -/
lemma entry_step_not_matching (rd : Nat) (ev : KeyEvent) (ks : List (Nat × Bool))
    (e : Entry) (h : ev.keysym ≠ e.keysym) :
    entry_step rd ev ks e = (ks, [], false) := by
  simp [entry_step, h]

/-- Whether an entry fires on an event depends only on the event and the
entry: key match, and either HOLD mode or a PRESS. -/
def entry_changes (ev : KeyEvent) (e : Entry) : Bool :=
  ev.keysym == e.keysym &&
    (e.key_type == KeyType.HOLD || ev.type_ == KeyEventType.PRESS)

lemma entry_step_change (rd : Nat) (ev : KeyEvent) (ks : List (Nat × Bool))
    (e : Entry) : (entry_step rd ev ks e).2.2 = entry_changes ev e := by
  unfold entry_step entry_changes
  by_cases hk : ev.keysym = e.keysym
  · cases ht : e.key_type <;> by_cases hp : ev.type_ = KeyEventType.PRESS <;>
      simp [hk, hp]
  · simp [hk]

/-- If no entry matches the event keysym, the loop is a no-op. -/
lemma loop_entries_no_match (rd : Nat) (ev : KeyEvent) :
    ∀ (table : List Entry) (ks : List (Nat × Bool)),
      (∀ x ∈ table, ev.keysym ≠ x.keysym) →
      loop_entries rd ev ks table = (ks, [], false)
  | [], _, _ => rfl
  | x :: rest, ks, h => by
      have hx : ev.keysym ≠ x.keysym := h x (List.mem_cons_self x rest)
      have hrest := loop_entries_no_match rd ev rest ks
        (fun y hy => h y (List.mem_cons_of_mem x hy))
      simp [loop_entries, entry_step_not_matching rd ev ks x hx, hrest]

/-- If the only entry whose keysym matches the event is `e`, the loop is
exactly the step of `e`. -/
lemma loop_entries_single_match (rd : Nat) (ev : KeyEvent) (e : Entry) :
    ∀ (table : List Entry) (ks : List (Nat × Bool)),
      table.filter (fun x => x.keysym == ev.keysym) = [e] →
      loop_entries rd ev ks table = entry_step rd ev ks e
  | [], _, h => by simp at h
  | x :: rest, ks, h => by
      by_cases hx : x.keysym = ev.keysym
      · rw [List.filter_cons_of_pos (by simpa using hx)] at h
        obtain ⟨rfl, hrest⟩ := List.cons_eq_cons.mp h
        have hnone : ∀ y ∈ rest, ev.keysym ≠ y.keysym := by
          intro y hy hc
          exact List.filter_eq_nil_iff.mp hrest y hy (by simp [hc])
        have hloop := loop_entries_no_match rd ev rest
          (entry_step rd ev ks x).1 hnone
        simp [loop_entries, hloop]
      · rw [List.filter_cons_of_neg (by simpa using hx)] at h
        have hx' : ev.keysym ≠ x.keysym := fun hc => hx hc.symm
        have hstep := entry_step_not_matching rd ev ks x hx'
        have ih := loop_entries_single_match rd ev e rest ks h
        simp [loop_entries, hstep, ih]

/-- The accumulated `change` flag of the loop. -/
lemma loop_entries_change (rd : Nat) (ev : KeyEvent) :
    ∀ (table : List Entry) (ks : List (Nat × Bool)),
      (loop_entries rd ev ks table).2.2 = table.any (entry_changes ev)
  | [], _ => rfl
  | x :: rest, ks => by
      simp [loop_entries, entry_step_change,
        loop_entries_change rd ev rest (entry_step rd ev ks x).1]

lemma sent_mutes_to_append (h : Nat) (t1 t2 : List Action) :
    sent_mutes_to h (t1 ++ t2) = sent_mutes_to h t1 ++ sent_mutes_to h t2 := by
  simp [sent_mutes_to]

lemma sent_mutes_append (t1 t2 : List Action) :
    sent_mutes (t1 ++ t2) = sent_mutes t1 ++ sent_mutes t2 := by
  simp [sent_mutes]

/-- A step of an entry bound to a different handle sends nothing to `h`. -/
lemma entry_step_other_handle (rd : Nat) (ev : KeyEvent) (ks : List (Nat × Bool))
    (e : Entry) (h : Nat) (hp : e.node.proxy ≠ h) :
    sent_mutes_to h (entry_step rd ev ks e).2.1 = [] := by
  unfold entry_step
  by_cases hk : ev.keysym = e.keysym
  · cases ht : e.key_type
    · by_cases hs : (ev.type_ = KeyEventType.RELEASE) ∧ rd > 0 <;>
        simp [hk, hs, sent_mutes_to, set_mute, hp]
    · by_cases hpr : ev.type_ = KeyEventType.PRESS <;>
        simp [hk, hpr, sent_mutes_to, set_mute, hp]
  · simp [hk, sent_mutes_to]

/-- A matching HOLD entry sends exactly one request to its own handle: the
value is `true` exactly on RELEASE. -/
lemma entry_step_hold_handle (rd : Nat) (ev : KeyEvent) (ks : List (Nat × Bool))
    (e : Entry) (hm : e.key_type = KeyType.HOLD) (hk : ev.keysym = e.keysym) :
    sent_mutes_to e.node.proxy (entry_step rd ev ks e).2.1
      = [decide (ev.type_ = KeyEventType.RELEASE)] := by
  unfold entry_step
  by_cases hs : (ev.type_ = KeyEventType.RELEASE) ∧ rd > 0 <;>
    simp [hk, hm, hs, sent_mutes_to, set_mute]

/-- If no entry of the table owns handle `h`, the loop sends nothing to `h`. -/
lemma loop_entries_no_handle (rd : Nat) (ev : KeyEvent) (h : Nat) :
    ∀ (table : List Entry) (ks : List (Nat × Bool)),
      (∀ x ∈ table, x.node.proxy ≠ h) →
      sent_mutes_to h (loop_entries rd ev ks table).2.1 = []
  | [], _, _ => rfl
  | x :: rest, ks, hall => by
      have hx := hall x (List.mem_cons_self x rest)
      have ih := loop_entries_no_handle rd ev h rest (entry_step rd ev ks x).1
        (fun y hy => hall y (List.mem_cons_of_mem x hy))
      simp [loop_entries, sent_mutes_to_append,
        entry_step_other_handle rd ev ks x h hx, ih]

/-- If the unique entry owning handle `h` is a HOLD entry matching the event
key, the requests the loop sends to `h` are exactly one with value `true`
exactly on RELEASE — whatever the rest of the table contains. -/
lemma loop_entries_hold_handle (rd : Nat) (ev : KeyEvent) (e : Entry)
    (hm : e.key_type = KeyType.HOLD) (hk : ev.keysym = e.keysym) :
    ∀ (table : List Entry) (ks : List (Nat × Bool)),
      table.filter (fun x => x.node.proxy == e.node.proxy) = [e] →
      sent_mutes_to e.node.proxy (loop_entries rd ev ks table).2.1
        = [decide (ev.type_ = KeyEventType.RELEASE)]
  | [], _, hf => by simp at hf
  | x :: rest, ks, hf => by
      by_cases hx : x.node.proxy = e.node.proxy
      · rw [List.filter_cons_of_pos (by simpa using hx)] at hf
        obtain ⟨rfl, hrest⟩ := List.cons_eq_cons.mp hf
        have hnone : ∀ y ∈ rest, y.node.proxy ≠ x.node.proxy := by
          intro y hy hc
          exact List.filter_eq_nil_iff.mp hrest y hy (by simp [hc])
        have hloop := loop_entries_no_handle rd ev x.node.proxy rest
          (entry_step rd ev ks x).1 hnone
        simp [loop_entries, sent_mutes_to_append, hloop,
          entry_step_hold_handle rd ev ks x hm hk]
      · rw [List.filter_cons_of_neg (by simpa using hx)] at hf
        have ih := loop_entries_hold_handle rd ev e hm hk rest
          (entry_step rd ev ks x).1 hf
        simp [loop_entries, sent_mutes_to_append,
          entry_step_other_handle rd ev ks x e.node.proxy hx, ih]

/-! ## Lemmas about the toggle state -/

lemma ks_get_set (ks : List (Nat × Bool)) (id : Nat) (v : Bool) :
    ks_get (ks_set ks id v) id = v := by
  unfold ks_set
  by_cases hmem : ks.any (fun p => p.1 == id)
  · simp only [hmem, if_true]
    induction ks with
    | nil => simp at hmem
    | cons q rest ih =>
        by_cases hq : q.1 = id
        · simp [ks_get, List.find?, hq]
        · have hq' : (q.1 == id) = false := by simpa using hq
          have hrest : rest.any (fun p => p.1 == id) := by
            rcases List.any_eq_true.mp hmem with ⟨p, hp, hpe⟩
            rcases List.mem_cons.mp hp with h1 | h2
            · exact absurd (by simpa [h1] using hpe) hq
            · exact List.any_eq_true.mpr ⟨p, h2, hpe⟩
          simpa [ks_get, List.find?, hq'] using ih hrest
  · simp only [hmem, if_false]
    induction ks with
    | nil => simp [ks_get, List.find?]
    | cons q rest ih =>
        have hq : (q.1 == id) = false := by
          by_contra hc
          exact hmem (List.any_eq_true.mpr
            ⟨q, List.mem_cons_self q rest, by simpa using hc⟩)
        have hrest : ¬ rest.any (fun p => p.1 == id) := by
          intro hc
          rcases List.any_eq_true.mp hc with ⟨p, hp, hpe⟩
          exact hmem (List.any_eq_true.mpr ⟨p, List.mem_cons_of_mem q hp, hpe⟩)
        simpa [ks_get, List.find?, hq] using ih hrest

/-- Unfolding of `process_event` (the two projections of the loop result). -/
lemma process_event_eq (rd : Nat) (table : List Entry) (ks : List (Nat × Bool))
    (ev : KeyEvent) :
    process_event rd table ks ev
      = ((loop_entries rd ev ks table).1,
         (loop_entries rd ev ks table).2.1
           ++ (if (loop_entries rd ev ks table).2.2
               then [Action.Roundtrip dispatcherConn] else [])) := rfl

/-- Unfolding of `run_events` on a cons. -/
lemma run_events_cons (rd : Nat) (table : List Entry) (ks : List (Nat × Bool))
    (ev : KeyEvent) (evs : List KeyEvent) :
    run_events rd table ks (ev :: evs)
      = ((run_events rd table (process_event rd table ks ev).1 evs).1,
         (process_event rd table ks ev).2
           ++ (run_events rd table (process_event rd table ks ev).1 evs).2) := rfl

/-- The values a toggle emits starting from remembered state `v`: each press
flips first, then sends. -/
def toggle_seq : Nat → Bool → List Bool
  | 0, _ => []
  | n + 1, v => (!v) :: toggle_seq n (!v)

/-- What one PRESS does when the unique entry on the pressed key is a TOGGLE
entry. -/
lemma process_event_toggle (rd : Nat) (k : Nat) (e : Entry)
    (hm : e.key_type = KeyType.TOGGLE) (table : List Entry)
    (hf : table.filter (fun x => x.keysym == k) = [e])
    (ks : List (Nat × Bool)) :
    process_event rd table ks ⟨KeyEventType.PRESS, k⟩
      = (ks_set ks e.node.global_id (!(ks_get ks e.node.global_id)),
         [set_mute e.node (!(ks_get ks e.node.global_id)),
          Action.Roundtrip dispatcherConn]) := by
  have he : e ∈ table.filter (fun x => x.keysym == k) := by
    rw [hf]; exact List.mem_singleton_self e
  have hek : e.keysym = k := by simpa using (List.mem_filter.mp he).2
  have hloop := loop_entries_single_match rd ⟨KeyEventType.PRESS, k⟩ e table ks hf
  have hstep : entry_step rd ⟨KeyEventType.PRESS, k⟩ ks e
      = (ks_set ks e.node.global_id (!(ks_get ks e.node.global_id)),
         [set_mute e.node (!(ks_get ks e.node.global_id))], true) := by
    unfold entry_step
    simp [hek, hm]
  rw [process_event_eq, hloop, hstep]
  rfl

/-- Repeated presses of the key of a unique TOGGLE entry emit the flip
sequence of the remembered state. -/
lemma run_events_toggle (rd : Nat) (k : Nat) (e : Entry)
    (hm : e.key_type = KeyType.TOGGLE) (table : List Entry)
    (hf : table.filter (fun x => x.keysym == k) = [e]) :
    ∀ (n : Nat) (ks : List (Nat × Bool)),
      sent_mutes (run_events rd table ks
          (List.replicate n ⟨KeyEventType.PRESS, k⟩)).2
        = toggle_seq n (ks_get ks e.node.global_id)
  | 0, _ => rfl
  | n + 1, ks => by
      have ih := run_events_toggle rd k e hm table hf n
        (ks_set ks e.node.global_id (!(ks_get ks e.node.global_id)))
      rw [List.replicate_succ, run_events_cons,
        process_event_toggle rd k e hm table hf ks]
      simp only [sent_mutes_append]
      rw [ih, ks_get_set]
      rfl

/-- `toggle_seq` in closed form: the i-th value (0-based) equals the starting
state exactly on odd indices. -/
lemma toggle_seq_eq : ∀ (n : Nat) (v : Bool),
    toggle_seq n v = (List.range n).map (fun i => v == decide (i % 2 = 1))
  | 0, _ => rfl
  | n + 1, v => by
      rw [toggle_seq, toggle_seq_eq n (!v), List.range_succ_eq_map]
      simp only [List.map_cons, List.map_map]
      congr 1
      · simp
      · refine List.map_congr_left ?_
        intro i _
        rcases Nat.mod_two_eq_zero_or_one i with h | h
        · have h1 : (i + 1) % 2 = 1 := by omega
          cases v <;> simp [h, h1, Function.comp]
        · have h1 : (i + 1) % 2 = 0 := by omega
          cases v <;> simp [h, h1, Function.comp]

/-! ## Lemmas about the Watcher -/

/-- One table entry per binding of the list, with consecutive fresh handles
starting at `np`, all on the Watcher connection and all for global `gid`. -/
def spec_entries_from (gid : Nat) : Nat → List Binding → List Entry
  | _, [] => []
  | np, b :: rest =>
      { node := { global_id := gid, proxy := np, conn := watcherConn },
        key_type := b.key_type, keysym := b.keysym }
        :: spec_entries_from gid (np + 1) rest

/-- The actions the Watcher emits for a list of freshly created entries: for
each entry, bind the proxy, issue the mute=true request against it, then
push it onto the table. -/
def watcher_trace : List Entry → List Action
  | [] => []
  | e :: rest =>
      Action.Bind e.node.conn e.node.global_id
        :: set_mute e.node true :: Action.Insert :: watcher_trace rest

/-- The entries a single add-notification creates, phrased as the spec
claims it: an entry exactly when the object type is `Node`, properties are
present, a `node.name` property is reported, and it equals the
`endpointName` of the binding — one separate entry per matching binding. -/
def watcher_new_entries (name_key : List Binding) (np : Nat)
    (g : GlobalObject) : List Entry :=
  if g.type_ = ObjectType.Node then
    match g.props with
    | some props =>
        match props_get props ("node.name") with
        | some name =>
            spec_entries_from g.id np (name_key.filter (fun b => name == b.name))
        | none => []
    | none => []
  else []

lemma spec_entries_from_length (gid : Nat) :
    ∀ (np : Nat) (bs : List Binding),
      (spec_entries_from gid np bs).length = bs.length
  | _, [] => rfl
  | np, _ :: rest => by
      simp [spec_entries_from, spec_entries_from_length gid (np + 1) rest]

lemma bind_matches_eq (gid : Nat) :
    ∀ (bs : List Binding) (table : List Entry) (np : Nat),
      bind_matches gid table np bs
        = (table ++ spec_entries_from gid np bs,
           watcher_trace (spec_entries_from gid np bs),
           np + bs.length)
  | [], table, np => by simp [bind_matches, spec_entries_from, watcher_trace]
  | b :: rest, table, np => by
      have ih := bind_matches_eq gid rest
        (table ++ [{ node := { global_id := gid, proxy := np, conn := watcherConn },
                     key_type := b.key_type, keysym := b.keysym }]) (np + 1)
      simp only [bind_matches, ih, spec_entries_from, watcher_trace,
        Prod.mk.injEq, List.length_cons]
      refine ⟨by simp, rfl, by omega⟩

/-- `on_global` in closed form: it appends exactly the claim-shaped new
entries, emits exactly the bind/mute/push actions for them, and advances the
fresh-handle counter by their number. -/
lemma on_global_eq (nk : List Binding) (table : List Entry) (np : Nat)
    (g : GlobalObject) :
    on_global nk table np g
      = (table ++ watcher_new_entries nk np g,
         watcher_trace (watcher_new_entries nk np g),
         np + (watcher_new_entries nk np g).length) := by
  unfold on_global watcher_new_entries
  cases hp : g.props with
  | none =>
      by_cases ht : g.type_ = ObjectType.Node <;> simp [ht, watcher_trace]
  | some props =>
      by_cases ht : g.type_ = ObjectType.Node
      · cases hn : props_get props ("node.name") with
        | none => simp [ht, hn, watcher_trace]
        | some name =>
            simp [ht, hn, bind_matches_eq, spec_entries_from_length]
      · simp [ht, watcher_trace]

/-- No barrier action ever appears in a Watcher trace. -/
lemma watcher_trace_no_roundtrip :
    ∀ (es : List Entry), (watcher_trace es).countP is_roundtrip = 0
  | [] => rfl
  | e :: rest => by
      simp [watcher_trace, List.countP_cons, is_roundtrip, set_mute,
        watcher_trace_no_roundtrip rest]

/-- The Watcher servicing a whole stream of global notifications in order
(`mainloop.run()` dispatching the registry listener). -/
def watcher_run (nk : List Binding) :
    List Entry → Nat → List GlobalObject → List Entry × List Action × Nat
  | table, np, [] => (table, [], np)
  | table, np, g :: gs =>
      let s1 := on_global nk table np g
      let s2 := watcher_run nk s1.1 s1.2.2 gs
      (s2.1, s1.2.1 ++ s2.2.1, s2.2.2)

lemma spec_entries_from_eq_nil (gid np : Nat) (bs : List Binding) :
    spec_entries_from gid np bs = [] ↔ bs = [] := by
  cases bs <;> simp [spec_entries_from]

/-- Unfolding of `do_roundtrip` on a cons. -/
lemma do_roundtrip_cons (pending : Nat) (e : DoneEvent) (tail : List DoneEvent) :
    do_roundtrip pending (e :: tail)
      = if e.id = PW_ID_CORE ∧ e.seq = pending then some tail
        else do_roundtrip pending tail := rfl

/-! ## Fixtures used by witnesses and counterexamples -/

/-- A bound endpoint as the Watcher creates it: global id 33, first fresh
handle, proxy living on the Watcher connection. -/
def micNode : Node := { global_id := 33, proxy := 0, conn := watcherConn }

/-- A TOGGLE table entry for `micNode` on keysym 65. -/
def togEntry : Entry :=
  { node := micNode, key_type := KeyType.TOGGLE, keysym := 65 }

/-- A HOLD table entry for `micNode` on keysym 65. -/
def holdEntry : Entry :=
  { node := micNode, key_type := KeyType.HOLD, keysym := 65 }

/-! ## The claims -/

/-- Claim C8: for every key event whose key matches zero entries in the
binding table, the Dispatcher sends zero mute requests and makes no
barrier call: the whole event-loop iteration leaves `key_states` unchanged
and emits no action at all. -/
theorem C8_unbound_key_noop (rd : Nat) (table : List Entry)
    (ks : List (Nat × Bool)) (ev : KeyEvent)
    (h : ∀ x ∈ table, ev.keysym ≠ x.keysym) :
    process_event rd table ks ev = (ks, []) := by
  rw [process_event_eq, loop_entries_no_match rd ev table ks h]
  rfl

/-- Witness for C8: key 66 pressed while only keysym 65 is bound (a
configured endpoint that never appeared binds nothing, so its key matches
zero entries). -/
theorem C8_unbound_key_noop_witness :
    process_event 0 [holdEntry, togEntry] []
        { type_ := KeyEventType.PRESS, keysym := 66 } = ([], []) :=
  C8_unbound_key_noop 0 [holdEntry, togEntry] []
    { type_ := KeyEventType.PRESS, keysym := 66 } (by decide)

/-- Claim C9: `do_roundtrip` returns only after a `done` acknowledgement
carrying the core id and the exact pending sequence number has been
serviced; acknowledgements with any other id or sequence number never make
it return (if none ever matches, it never returns). -/
theorem C9_roundtrip_ack (pending : Nat) (evs : List DoneEvent) :
    (do_roundtrip pending evs = none ↔
        ∀ e ∈ evs, ¬(e.id = PW_ID_CORE ∧ e.seq = pending))
    ∧ ∀ rest, do_roundtrip pending evs = some rest →
        ∃ pre e, evs = pre ++ e :: rest
          ∧ e.id = PW_ID_CORE ∧ e.seq = pending
          ∧ ∀ x ∈ pre, ¬(x.id = PW_ID_CORE ∧ x.seq = pending) := by
  induction evs with
  | nil =>
      refine ⟨by simp [do_roundtrip], ?_⟩
      intro rest h
      simp [do_roundtrip] at h
  | cons e tail ih =>
      by_cases hc : e.id = PW_ID_CORE ∧ e.seq = pending
      · refine ⟨?_, ?_⟩
        · rw [do_roundtrip_cons, if_pos hc]
          constructor
          · intro h; exact Option.noConfusion h
          · intro h; exact absurd hc (h e (List.mem_cons_self e tail))
        · intro rest h
          rw [do_roundtrip_cons, if_pos hc] at h
          obtain rfl : tail = rest := Option.some.inj h
          exact ⟨[], e, by simp, hc.1, hc.2, by simp⟩
      · have hstep : do_roundtrip pending (e :: tail) = do_roundtrip pending tail := by
          rw [do_roundtrip_cons, if_neg hc]
        refine ⟨?_, ?_⟩
        · rw [hstep, ih.1]
          constructor
          · intro h x hx
            rcases List.mem_cons.mp hx with rfl | hx2
            · exact hc
            · exact h x hx2
          · intro h x hx
            exact h x (List.mem_cons_of_mem e hx)
        · intro rest h
          rw [hstep] at h
          obtain ⟨pre, x, hsplit, hid, hseq, hpre⟩ := ih.2 rest h
          refine ⟨e :: pre, x, by simp [hsplit], hid, hseq, ?_⟩
          intro y hy
          rcases List.mem_cons.mp hy with rfl | hy2
          · exact hc
          · exact hpre y hy2

/-- Claim C10: no operation removes a binding table entry.  The Watcher,
over any stream of notifications, only ever appends to the table (there is
no remove-notification handler in `listen_for_nodes`), so every existing
entry and its handle survive at their positions; the Dispatcher
(`process_event`) takes the table as read-only input and returns no table
at all. -/
theorem C10_table_monotone (nk : List Binding) (gs : List GlobalObject) :
    ∀ (table : List Entry) (np : Nat),
      ∃ new, (watcher_run nk table np gs).1 = table ++ new := by
  induction gs with
  | nil =>
      intro table np
      exact ⟨[], by simp [watcher_run]⟩
  | cons g rest ih =>
      intro table np
      obtain ⟨new2, h2⟩ := ih (on_global nk table np g).1 (on_global nk table np g).2.2
      refine ⟨watcher_new_entries nk np g ++ new2, ?_⟩
      show (watcher_run nk (on_global nk table np g).1
        (on_global nk table np g).2.2 rest).1 = _
      rw [h2, on_global_eq]
      simp

/-- Claim C5 counterexample: a matching add-notification (a `Node` object
named `Mic1`, matching the one configured binding).  The Watcher emits
bind, then the mute=true request, then the table insert — and no barrier
action at all: `do_roundtrip` is never called inside `listen_for_nodes`,
refuting the claim that the Barrier runs on the Watcher connection before
further notifications are serviced (the claimed insert-before-request
order also fails). -/
theorem C5_counterexample :
    (on_global [{ name := "Mic1", key_type := KeyType.HOLD, keysym := 65 }] [] 0
        { id := 33, type_ := ObjectType.Node,
          props := some [("node.name", "Mic1")] }).2.1
      = [Action.Bind watcherConn 33, Action.SetParam watcherConn 0 true,
         Action.Insert]
    ∧ List.countP is_roundtrip
        [Action.Bind watcherConn 33, Action.SetParam watcherConn 0 true,
         Action.Insert] = 0 := by
  decide

/-- Claim C5 as amended: on each add-notification the Watcher binds a
handle for every matching binding, issues the mute=true request against
the new handle, and then inserts the entry into the table; it makes no
barrier call at all (its requests are flushed by its continuously running
main loop instead). -/
theorem C5_watcher_no_barrier (nk : List Binding) (table : List Entry)
    (np : Nat) (g : GlobalObject) :
    (on_global nk table np g).2.1 = watcher_trace (watcher_new_entries nk np g)
    ∧ ((on_global nk table np g).2.1).countP is_roundtrip = 0 := by
  rw [on_global_eq]
  exact ⟨rfl, watcher_trace_no_roundtrip _⟩

/-- Claim C6: the Watcher creates entries exactly when the object type is
`Node`, properties are present, and the reported `node.name` equals a
configured binding name — one separate entry per matching binding, all
ignored silently otherwise.  Stated as a refinement: `on_global` (shaped
like the source: props-check first, early returns) appends exactly
`watcher_new_entries` (shaped like the claim: a conjunctive guard and one
entry per filtered binding). -/
theorem C6_watcher_filter (nk : List Binding) (table : List Entry) (np : Nat)
    (g : GlobalObject) :
    (on_global nk table np g).1 = table ++ watcher_new_entries nk np g
    ∧ (watcher_new_entries nk np g ≠ [] ↔
        g.type_ = ObjectType.Node
        ∧ ∃ props name, g.props = some props
            ∧ props_get props ("node.name") = some name
            ∧ ∃ b ∈ nk, name = b.name)
    ∧ (∀ props name, g.props = some props → g.type_ = ObjectType.Node →
        props_get props ("node.name") = some name →
        (watcher_new_entries nk np g).length
          = (nk.filter (fun b => name == b.name)).length) := by
  refine ⟨by rw [on_global_eq], ?_, ?_⟩
  · unfold watcher_new_entries
    by_cases ht : g.type_ = ObjectType.Node
    · cases hp : g.props with
      | none => simp [ht, hp]
      | some props =>
          cases hn : props_get props ("node.name") with
          | none => simp [ht, hn]
          | some name =>
              simp [ht, hn, spec_entries_from_eq_nil, List.filter_eq_nil_iff]
    · simp [ht]
  · intro props name hp ht hn
    unfold watcher_new_entries
    simp [ht, hp, hn, spec_entries_from_length]

/-- Witness for C6: one binding named `Mic1`, a matching Node notification:
exactly one entry is created, one per matching binding. -/
theorem C6_watcher_filter_witness :
    (watcher_new_entries
        [{ name := "Mic1", key_type := KeyType.HOLD, keysym := 65 }] 0
        { id := 33, type_ := ObjectType.Node,
          props := some [("node.name", "Mic1")] }).length
      = (([{ name := "Mic1", key_type := KeyType.HOLD, keysym := 65 }]
          : List Binding).filter
            (fun b => ("Mic1" : String) == b.name)).length :=
  (C6_watcher_filter
      [{ name := "Mic1", key_type := KeyType.HOLD, keysym := 65 }] [] 0
      { id := 33, type_ := ObjectType.Node,
        props := some [("node.name", "Mic1")] }).2.2
    [("node.name", "Mic1")] "Mic1" rfl rfl (by decide)

/-- Witness for C9: against the event stream
`[(1,7), (0,3), (0,7), (0,9)]` and pending number 7, the roundtrip consumes
exactly through the third event — the first with core id and sequence 7 —
and the un-matching earlier acknowledgements did not make it return. -/
theorem C9_roundtrip_ack_witness :
    ∃ pre e,
      ([{ id := 1, seq := 7 }, { id := 0, seq := 3 }, { id := 0, seq := 7 },
        { id := 0, seq := 9 }] : List DoneEvent)
        = pre ++ e :: [{ id := 0, seq := 9 }]
      ∧ e.id = PW_ID_CORE ∧ e.seq = 7
      ∧ ∀ x ∈ pre, ¬(x.id = PW_ID_CORE ∧ x.seq = 7) :=
  (C9_roundtrip_ack 7
      [{ id := 1, seq := 7 }, { id := 0, seq := 3 }, { id := 0, seq := 7 },
       { id := 0, seq := 9 }]).2
    [{ id := 0, seq := 9 }] (by decide)

/-- Claim C2 counterexample: a single TOGGLE entry, one PRESS (n = 1, odd).
The remembered state is created as `true`, flipped to `false`, and `false`
is sent: the first press unmutes, refuting "mute is set to `true` when n is
odd". -/
theorem C2_counterexample :
    sent_mutes (run_events 0 [togEntry] []
        (List.replicate 1 { type_ := KeyEventType.PRESS, keysym := 65 })).2
      = [false]
    ∧ sent_mutes (run_events 0 [togEntry] []
        (List.replicate 1 { type_ := KeyEventType.PRESS, keysym := 65 })).2
      ≠ [true] := by
  decide

/-- Claim C2 as amended: for a TOGGLE binding that is the only entry bound
to its key, the n-th PRESS sets mute to `false` when n is odd and to `true`
when n is even (the state is initialized to `true` and flipped before each
send, so the value sent at 0-based index i is `true` exactly when i is
odd). -/
theorem C2_toggle_parity (rd n : Nat) (table : List Entry) (e : Entry)
    (k : Nat)
    (hf : table.filter (fun x => x.keysym == k) = [e])
    (hm : e.key_type = KeyType.TOGGLE) :
    sent_mutes (run_events rd table []
        (List.replicate n { type_ := KeyEventType.PRESS, keysym := k })).2
      = (List.range n).map (fun i => decide (i % 2 = 1)) := by
  rw [run_events_toggle rd k e hm table hf n [], toggle_seq_eq]
  have h0 : ks_get [] e.node.global_id = true := rfl
  rw [h0]
  simp

/-- Witness for C2 (amended): two presses of the toggle entry send
`[false, true]`. -/
theorem C2_toggle_parity_witness :
    sent_mutes (run_events 0 [togEntry] []
        (List.replicate 2 { type_ := KeyEventType.PRESS, keysym := 65 })).2
      = (List.range 2).map (fun i => decide (i % 2 = 1)) :=
  C2_toggle_parity 0 2 [togEntry] togEntry 65 (by decide) rfl

/-- Claim C3: a TOGGLE binding with state initially `true`: three
consecutive presses of its key send the mute sequence
`[false, true, false]`, and a RELEASE in TOGGLE mode triggers nothing (no
request and no barrier, state untouched). -/
theorem C3_toggle_three_presses (rd : Nat) (node : Node) (k : Nat)
    (ks : List (Nat × Bool)) :
    sent_mutes (run_events rd
        [{ node := node, key_type := KeyType.TOGGLE, keysym := k }] []
        (List.replicate 3 { type_ := KeyEventType.PRESS, keysym := k })).2
      = [false, true, false]
    ∧ process_event rd
        [{ node := node, key_type := KeyType.TOGGLE, keysym := k }] ks
        { type_ := KeyEventType.RELEASE, keysym := k }
      = (ks, []) := by
  constructor
  · rw [run_events_toggle rd k
      { node := node, key_type := KeyType.TOGGLE, keysym := k } rfl
      [{ node := node, key_type := KeyType.TOGGLE, keysym := k }] (by simp) 3 []]
    rfl
  · rw [process_event_eq, loop_entries_single_match rd
      { type_ := KeyEventType.RELEASE, keysym := k }
      { node := node, key_type := KeyType.TOGGLE, keysym := k }
      [{ node := node, key_type := KeyType.TOGGLE, keysym := k }] ks (by simp)]
    simp [entry_step]

lemma run_events_nil (rd : Nat) (table : List Entry) (ks : List (Nat × Bool)) :
    run_events rd table ks [] = (ks, []) := rfl

/-- Claim C4: a HOLD binding whose handle belongs to exactly one table
entry: PRESS then RELEASE of its key issue exactly the request sequence
`[unmute, mute]` against that handle, each followed by a barrier call
(whatever else the table contains on other handles). -/
theorem C4_hold_press_release (rd : Nat) (table : List Entry)
    (ks : List (Nat × Bool)) (e : Entry)
    (hf : table.filter (fun x => x.node.proxy == e.node.proxy) = [e])
    (hm : e.key_type = KeyType.HOLD) :
    ∃ t1 t2,
      (run_events rd table ks
          [{ type_ := KeyEventType.PRESS, keysym := e.keysym },
           { type_ := KeyEventType.RELEASE, keysym := e.keysym }]).2
        = t1 ++ Action.Roundtrip dispatcherConn
            :: (t2 ++ [Action.Roundtrip dispatcherConn])
      ∧ sent_mutes_to e.node.proxy t1 = [false]
      ∧ sent_mutes_to e.node.proxy t2 = [true] := by
  have he : e ∈ table.filter (fun x => x.node.proxy == e.node.proxy) := by
    rw [hf]
    exact List.mem_singleton_self e
  have hmem : e ∈ table := List.mem_of_mem_filter he
  have hch1 : (loop_entries rd { type_ := KeyEventType.PRESS, keysym := e.keysym }
      ks table).2.2 = true := by
    rw [loop_entries_change]
    exact List.any_eq_true.mpr ⟨e, hmem, by simp [entry_changes, hm]⟩
  have hch2 : (loop_entries rd { type_ := KeyEventType.RELEASE, keysym := e.keysym }
      (loop_entries rd { type_ := KeyEventType.PRESS, keysym := e.keysym } ks table).1
      table).2.2 = true := by
    rw [loop_entries_change]
    exact List.any_eq_true.mpr ⟨e, hmem, by simp [entry_changes, hm]⟩
  refine ⟨(loop_entries rd { type_ := KeyEventType.PRESS, keysym := e.keysym }
      ks table).2.1,
    (loop_entries rd { type_ := KeyEventType.RELEASE, keysym := e.keysym }
      (loop_entries rd { type_ := KeyEventType.PRESS, keysym := e.keysym } ks table).1
      table).2.1, ?_, ?_, ?_⟩
  · simp [run_events_cons, run_events_nil, process_event_eq, hch1, hch2]
  · simpa using loop_entries_hold_handle rd
      { type_ := KeyEventType.PRESS, keysym := e.keysym } e hm rfl table ks hf
  · simpa using loop_entries_hold_handle rd
      { type_ := KeyEventType.RELEASE, keysym := e.keysym } e hm rfl table
      (loop_entries rd { type_ := KeyEventType.PRESS, keysym := e.keysym } ks table).1 hf

/-- Witness for C4: the single HOLD entry pressed and released. -/
theorem C4_hold_press_release_witness :
    ∃ t1 t2,
      (run_events 0 [holdEntry] []
          [{ type_ := KeyEventType.PRESS, keysym := holdEntry.keysym },
           { type_ := KeyEventType.RELEASE, keysym := holdEntry.keysym }]).2
        = t1 ++ Action.Roundtrip dispatcherConn
            :: (t2 ++ [Action.Roundtrip dispatcherConn])
      ∧ sent_mutes_to holdEntry.node.proxy t1 = [false]
      ∧ sent_mutes_to holdEntry.node.proxy t2 = [true] :=
  C4_hold_press_release 0 [holdEntry] [] holdEntry (by decide) rfl

/-- Claim C7: for a HOLD binding (the only entry on its key), a RELEASE with
non-zero release-delay makes the Dispatcher thread sleep for exactly that
delay immediately before the mute request; with delay zero there is no
sleep; and a PRESS (the unmute) never sleeps whatever the delay. -/
theorem C7_release_delay_sleep (rd : Nat) (table : List Entry)
    (ks : List (Nat × Bool)) (e : Entry) (k : Nat)
    (hf : table.filter (fun x => x.keysym == k) = [e])
    (hm : e.key_type = KeyType.HOLD) :
    (0 < rd →
      (process_event rd table ks
          { type_ := KeyEventType.RELEASE, keysym := k }).2
        = [Action.Sleep rd, set_mute e.node true,
           Action.Roundtrip dispatcherConn])
    ∧ (rd = 0 →
      (process_event rd table ks
          { type_ := KeyEventType.RELEASE, keysym := k }).2
        = [set_mute e.node true, Action.Roundtrip dispatcherConn])
    ∧ (process_event rd table ks
          { type_ := KeyEventType.PRESS, keysym := k }).2
        = [set_mute e.node false, Action.Roundtrip dispatcherConn] := by
  have he : e ∈ table.filter (fun x => x.keysym == k) := by
    rw [hf]
    exact List.mem_singleton_self e
  have hek : e.keysym = k := by simpa using (List.mem_filter.mp he).2
  refine ⟨?_, ?_, ?_⟩
  · intro hrd
    rw [process_event_eq, loop_entries_single_match rd
      { type_ := KeyEventType.RELEASE, keysym := k } e table ks hf]
    unfold entry_step
    simp [hek, hm, hrd]
  · intro hrd
    subst hrd
    rw [process_event_eq, loop_entries_single_match 0
      { type_ := KeyEventType.RELEASE, keysym := k } e table ks hf]
    unfold entry_step
    simp [hek, hm]
  · rw [process_event_eq, loop_entries_single_match rd
      { type_ := KeyEventType.PRESS, keysym := k } e table ks hf]
    unfold entry_step
    simp [hek, hm]

/-- Witness for C7: release-delay 200 ms, RELEASE of the single HOLD
entry: sleep of 200, then the mute request, then the barrier. -/
theorem C7_release_delay_sleep_witness :
    (process_event 200 [holdEntry] []
        { type_ := KeyEventType.RELEASE, keysym := 65 }).2
      = [Action.Sleep 200, set_mute holdEntry.node true,
         Action.Roundtrip dispatcherConn] :=
  (C7_release_delay_sleep 200 [holdEntry] [] holdEntry 65
    (by decide) rfl).1 (by decide)

/-- Claim C1: the claim says the barrier runs on the connection that
carries the mutation requests.  On the code it does not: the table entry
was bound by the Watcher registry, so `set_mute` issues its request on the
Watcher connection, while `main` calls `do_roundtrip` on its own core.
Evaluated at the failing input (one HOLD binding for `Mic1`, the endpoint
appearing, then one PRESS): the trace holds a mutation on `watcherConn`
and a barrier only on `dispatcherConn` — no barrier ever runs on the
connection of the mutation, so the mutation is not flushed before the next
event is read. -/
theorem C1_barrier_on_other_connection :
    (process_event 0
        ((on_global [{ name := "Mic1", key_type := KeyType.HOLD, keysym := 65 }]
            [] 0
            { id := 33, type_ := ObjectType.Node,
              props := some [("node.name", "Mic1")] }).1)
        [] { type_ := KeyEventType.PRESS, keysym := 65 }).2
      = [Action.SetParam watcherConn 0 false, Action.Roundtrip dispatcherConn]
    ∧ watcherConn ≠ dispatcherConn
    ∧ Action.Roundtrip watcherConn
        ∉ [Action.SetParam watcherConn 0 false,
           Action.Roundtrip dispatcherConn] := by
  decide

end PwPTT
